import Mathlib

/-!
Verification of the drift-audit component of the overlord-network-kill-switch
repository (scripts/state_drift_check.py) and of the Control Engine read
surface it audits.  Python strings are embedded as lists of Unicode code
points (`PyStr`); `Optional[str]` becomes `Option PyStr`; Python truthiness of
an optional string is made explicit (`truthy`).
-/

/-- A Python string, as its sequence of Unicode code points. -/
abbrev PyStr := List Nat

/-- Code points of a Lean string literal, for writing concrete `PyStr` values. -/
def pystr (s : String) : PyStr := s.data.map Char.toNat

/-- One step of Python `str.lower` (ASCII range; all literals in the program
are ASCII). -/
def lowerChar (c : Nat) : Nat := if 65 ≤ c ∧ c ≤ 90 then c + 32 else c

/-- Python whitespace recognised by `str.strip` (space, tab, LF, VT, FF, CR). -/
def isPySpace (c : Nat) : Bool := c == 32 || c == 9 || c == 10 || c == 11 || c == 12 || c == 13

/-- Python `str.lower`. -/
def pyLower (s : PyStr) : PyStr := s.map lowerChar

/-- Python `str.strip`: drop leading and trailing whitespace. -/
def pyStrip (s : PyStr) : PyStr :=
  ((s.dropWhile isPySpace).reverse.dropWhile isPySpace).reverse

/-- The composite `str(value).lower().strip()` from `StateComparison.normalize`. -/
def foldTrim (s : PyStr) : PyStr := pyStrip (pyLower s)

/-- The literals `("true", "on", "1", "enabled")` of line 51. -/
def trueLits : List PyStr := [pystr "true", pystr "on", pystr "1", pystr "enabled"]

/-- The literals `("false", "off", "0", "disabled")` of line 53. -/
def falseLits : List PyStr := [pystr "false", pystr "off", pystr "0", pystr "disabled"]

/-- The `StateComparison` dataclass (lines 30-38). -/
structure StateComparison where
  name : PyStr
  mqtt_topic : PyStr
  api_endpoint : PyStr
  mqtt_value : Option PyStr := none
  api_value : Option PyStr := none
  mqtt_error : Option PyStr := none
  api_error : Option PyStr := none
deriving DecidableEq

/-- `StateComparison.normalize` (state_drift_check.py lines 46-55): `None`
passes through; otherwise lower-case, strip, map the recognised literals to
`"true"` / `"false"`, and return any other string as is. -/
def StateComparison.normalize (value : Option PyStr) : Option PyStr :=
  match value with
  | none => none
  | some s =>
    let v := foldTrim s
    if v ∈ trueLits then some (pystr "true")
    else if v ∈ falseLits then some (pystr "false")
    else some v

/-- Python truthiness of an `Optional[str]`: `None` and `""` are falsy. -/
def truthy : Option PyStr → Bool
  | none => false
  | some s => !s.isEmpty

/-- The `matches` property (lines 40-44): false when either error field is
truthy, otherwise equality of the two normalised values (`None == None` is
true in Python). -/
def StateComparison.matches (c : StateComparison) : Bool :=
  if truthy c.mqtt_error || truthy c.api_error then false
  else StateComparison.normalize c.mqtt_value == StateComparison.normalize c.api_value

/-- The condition of lines 42 and 239: either error field is truthy. -/
def hasError (c : StateComparison) : Bool :=
  truthy c.mqtt_error || truthy c.api_error

/-- The three per-check outcomes counted by `print_results`. -/
inductive CheckClass where
  | Match
  | Drift
  | Error
deriving DecidableEq

/-- The classification performed per check in `print_results` (lines 239-241):
an error row when either error field is truthy, otherwise a drift row when
`matches` is false, otherwise a matching row. -/
def classify (c : StateComparison) : CheckClass :=
  if hasError c then CheckClass.Error
  else if !c.matches then CheckClass.Drift
  else CheckClass.Match

/-- The extra detail printed for a drift row (lines 241-245): the two
normalised values, shown only when the check drifted. -/
def driftDetail (c : StateComparison) : Option (Option PyStr × Option PyStr) :=
  if hasError c then none
  else if !c.matches then
    some (StateComparison.normalize c.mqtt_value, StateComparison.normalize c.api_value)
  else none

/-- Whether a check lands in one of the three report rows. -/
def isClass (k : CheckClass) (c : StateComparison) : Bool := classify c == k

/-- One iteration of the counting loop of `print_results` (lines 230-246),
accumulating `(drifts, errors)`. -/
def tallyStep (acc : Nat × Nat) (c : StateComparison) : Nat × Nat :=
  if hasError c then (acc.1, acc.2 + 1)
  else if !c.matches then (acc.1 + 1, acc.2)
  else acc

/-- The `(drifts, errors)` counters after the loop of `print_results`. -/
def tally (checks : List StateComparison) : Nat × Nat :=
  checks.foldl tallyStep (0, 0)

/-- The aggregate figures printed by `print_results` together with its return
value (the process exit code). -/
structure DriftReport where
  total : Nat
  matching : Nat
  drifts : Nat
  errors : Nat
  exit_code : Nat
deriving DecidableEq

/-- `StateDriftChecker.print_results` (lines 220-255), reduced to the data it
emits: the total, the three aggregate counts (`matching` is printed as
`len(checks) - drifts - errors`, line 250), and the exit code
(`1 if drifts > 0 or errors > 0 else 0`, line 255). -/
def print_results (checks : List StateComparison) : DriftReport :=
  let t := tally checks
  { total := checks.length
    matching := checks.length - t.1 - t.2
    drifts := t.1
    errors := t.2
    exit_code := if 0 < t.1 ∨ 0 < t.2 then 1 else 0 }

/-- The MQTT-assignment step of `run_checks` (lines 208-212): a check whose
topic is present in the collected dictionary receives the value, a check
whose topic is absent receives the error `"No retained message"`.  The
collected dictionary is modelled as a partial map from topic to payload. -/
def applyMqtt (m : PyStr → Option PyStr) (c : StateComparison) : StateComparison :=
  match m c.mqtt_topic with
  | some v => { c with mqtt_value := some v }
  | none => { c with mqtt_error := some (pystr "No retained message") }

/-- The loop of lines 208-212 applied to the whole check list. -/
def collectMqtt (m : PyStr → Option PyStr) (checks : List StateComparison) :
    List StateComparison :=
  checks.map (applyMqtt m)

/-- Python `str.splitlines` restricted to the LF, CR and CRLF boundaries
(the exotic Unicode boundaries are not reachable from an ini file read by
this program), with an explicit accumulator for the current line. -/
def splitlinesGo : PyStr → PyStr → List PyStr
  | [], acc => if acc.isEmpty then [] else [acc.reverse]
  | 13 :: 10 :: rest, acc => acc.reverse :: splitlinesGo rest []
  | 13 :: rest, acc => acc.reverse :: splitlinesGo rest []
  | 10 :: rest, acc => acc.reverse :: splitlinesGo rest []
  | c :: rest, acc => splitlinesGo rest (c :: acc)

/-- Python `rules_str.splitlines()` (line 119). -/
def splitlines (s : PyStr) : List PyStr := splitlinesGo s []

/-- The configuration sections consumed by `build_checks` (lines 96, 106,
117-118): an optional list of option names per domain section, and the raw
`rules` value when the `ubiquiti_rules` section exists (`config.get` with
fallback `""` when the key is missing). -/
structure IniConfig where
  block_domains : Option (List PyStr)
  allow_domains : Option (List PyStr)
  ubiquiti_rules : Option PyStr

/-- The global DNS check appended first by `build_checks` (lines 87-93). -/
def dnsMasterCheck : StateComparison :=
  { name := pystr "DNS Master"
    mqtt_topic := pystr "stat/dns_controller/master/status"
    api_endpoint := pystr "/alldns/" }

/-- The check built for one `block_domains` option (lines 98-104). -/
def mkBlockCheck (d : PyStr) : StateComparison :=
  { name := pystr "Block: " ++ d
    mqtt_topic := pystr "stat/dns_controller/media/" ++ d ++ pystr "/status"
    api_endpoint := pystr "/pihole/status/" ++ d }

/-- The check built for one `allow_domains` option (lines 108-114). -/
def mkAllowCheck (d : PyStr) : StateComparison :=
  { name := pystr "Allow: " ++ d
    mqtt_topic := pystr "stat/dns_controller/media/" ++ d ++ pystr "/status"
    api_endpoint := pystr "/pihole/status/" ++ d }

/-- The check built for one non-empty stripped line of the `rules` value
(lines 119-128). -/
def mkRuleCheck (r : PyStr) : StateComparison :=
  { name := pystr "Rule: " ++ r
    mqtt_topic := pystr "stat/router_controller/status/" ++ r
    api_endpoint := pystr "/ubiquiti/status_rule/" ++ r }

/-- `StateDriftChecker.build_checks` (lines 83-130): the global check, then
one check per `block_domains` option, one per `allow_domains` option, and one
per non-empty stripped line of the `ubiquiti_rules` `rules` value, appended
in source order. -/
def build_checks (config : IniConfig) : List StateComparison :=
  let checks : List StateComparison := [dnsMasterCheck]
  let checks :=
    match config.block_domains with
    | some opts => opts.foldl (fun acc d => acc ++ [mkBlockCheck d]) checks
    | none => checks
  let checks :=
    match config.allow_domains with
    | some opts => opts.foldl (fun acc d => acc ++ [mkAllowCheck d]) checks
    | none => checks
  let checks :=
    match config.ubiquiti_rules with
    | some rulesStr =>
        (splitlines rulesStr).foldl
          (fun acc line =>
            if (pyStrip line).isEmpty then acc else acc ++ [mkRuleCheck (pyStrip line)]) checks
    | none => checks
  checks

/-- The configured firewall-rule names: the non-empty stripped lines of the
`rules` value, or nothing when the section is absent. -/
def ruleNamesOf : Option PyStr → List PyStr
  | none => []
  | some s => ((splitlines s).map pyStrip).filter (fun r => !r.isEmpty)

/-- The outcome of the HTTP interaction inside `fetch_api_status`
(lines 133-144): a parsed JSON object on 2xx (values modelled after the
`str()` applied to them on line 138), or one of the three caught exception
shapes. -/
inductive HttpOutcome where
  | success (body : List (PyStr × PyStr))
  | statusError (code : Nat)
  | requestError (msg : PyStr)
  | otherError (msg : PyStr)

/-- Python `data.get("status", "unknown")` over the modelled JSON object. -/
def dictGet (d : List (PyStr × PyStr)) (k : PyStr) (dflt : PyStr) : PyStr :=
  match d.find? (fun kv => kv.1 == k) with
  | some kv => kv.2
  | none => dflt

/-- `StateDriftChecker.fetch_api_status` (lines 132-144): on success, record
`str(data.get("status", "unknown"))` as the api value; each caught exception
shape is recorded into `api_error`; no exception escapes. -/
def fetch_api_status (c : StateComparison) (o : HttpOutcome) : StateComparison :=
  match o with
  | HttpOutcome.success body =>
      { c with api_value := some (dictGet body (pystr "status") (pystr "unknown")) }
  | HttpOutcome.statusError code =>
      { c with api_error := some (pystr "HTTP " ++ (Nat.toDigits 10 code).map Char.toNat) }
  | HttpOutcome.requestError msg =>
      { c with api_error := some (pystr "Request failed: " ++ msg) }
  | HttpOutcome.otherError msg =>
      { c with api_error := some msg }

/-- Modelled from the spec: the Rule/Domain Control Engine (the repository's
`PiHoleOverlord` class) is not among the sources; only its unit and
integration tests are.  Per section 4.4 and the tests, the engine maps block
names to domain sets and queries every replica.  Replica state is modelled as
a per-replica table from domain to its enabled flag. -/
structure ControlEngine where
  block_domains : List (PyStr × List PyStr)
  allow_domains : List (PyStr × List PyStr)
  replicas : List (List (PyStr × Bool))

/-- Modelled from the spec: resolution of a name to its configured domain
set, looking first among domain blocks, then among domain allows. -/
def ControlEngine.lookupDomains (e : ControlEngine) (name : PyStr) :
    Option (List PyStr) :=
  match e.block_domains.find? (fun kv => kv.1 == name) with
  | some kv => some kv.2
  | none =>
    match e.allow_domains.find? (fun kv => kv.1 == name) with
    | some kv => some kv.2
    | none => none

/-- Modelled from the spec: whether one replica reports one domain present
and enabled. -/
def replicaEnabled (r : List (PyStr × Bool)) (d : PyStr) : Bool :=
  match r.find? (fun kv => kv.1 == d) with
  | some kv => kv.2
  | none => false

/-- Modelled from the spec: `get(name)` of the Control Engine (section 4.4;
tests `test_get_unknown_domain_block`, `test_get_domain_block_status_*`).
An unrecognised name yields the opaque sentinel `"Unknown"`; a recognised
name yields `"true"` iff some domain of the set is enabled on some replica
(logical OR across replicas), else `"false"`.  The function is total: no
branch raises. -/
def ControlEngine.get (e : ControlEngine) (name : PyStr) : PyStr :=
  match e.lookupDomains name with
  | none => pystr "Unknown"
  | some doms =>
    if e.replicas.any (fun r => doms.any (fun d => replicaEnabled r d)) then pystr "true"
    else pystr "false"

/-! Part: Lemmas about the embedded string primitives -/

theorem lowerChar_idem (c : Nat) : lowerChar (lowerChar c) = lowerChar c := by
  simp only [lowerChar]
  split_ifs <;> omega

theorem mem_pyStrip {c : Nat} {l : PyStr} (h : c ∈ pyStrip l) : c ∈ l := by
  simp only [pyStrip, List.mem_reverse] at h
  have h2 : c ∈ (l.dropWhile isPySpace).reverse := (List.dropWhile_sublist _).subset h
  rw [List.mem_reverse] at h2
  exact (List.dropWhile_sublist _).subset h2

theorem map_fixed {f : Nat → Nat} : ∀ {l : PyStr}, (∀ c ∈ l, f c = c) → l.map f = l
  | [], _ => rfl
  | x :: xs, h => by
    simp only [List.map_cons, List.cons.injEq]
    exact ⟨h x (List.mem_cons_self x xs),
      map_fixed fun c hc => h c (List.mem_cons_of_mem x hc)⟩

theorem pyLower_pyStrip_pyLower (l : PyStr) :
    pyLower (pyStrip (pyLower l)) = pyStrip (pyLower l) := by
  simp only [pyLower]
  apply map_fixed
  intro c hc
  have hml := mem_pyStrip hc
  simp only [List.mem_map] at hml
  obtain ⟨a, _, rfl⟩ := hml
  exact lowerChar_idem a

theorem pyStrip_eq_rdrop (l : PyStr) :
    pyStrip l = List.rdropWhile isPySpace (l.dropWhile isPySpace) := rfl

theorem dropWhile_of_isPrefix {p : Nat → Bool} : ∀ {m : PyStr}, {l : PyStr} →
    m <+: l → l.dropWhile p = l → m.dropWhile p = m
  | [], _, _, _ => rfl
  | x :: xs, l, hpre, hl => by
    obtain ⟨t, ht⟩ := hpre
    subst ht
    rw [List.cons_append] at hl
    rw [List.dropWhile_cons] at hl ⊢
    by_cases hx : p x
    · rw [if_pos hx] at hl
      have h1 := congrArg List.length hl
      have h2 := (List.dropWhile_sublist p (l := xs ++ t)).length_le
      simp only [List.length_cons] at h1
      omega
    · rw [if_neg hx]

theorem pyStrip_idem (l : PyStr) : pyStrip (pyStrip l) = pyStrip l := by
  simp only [pyStrip_eq_rdrop]
  have h1 : List.dropWhile isPySpace
        (List.rdropWhile isPySpace (l.dropWhile isPySpace))
      = List.rdropWhile isPySpace (l.dropWhile isPySpace) :=
    dropWhile_of_isPrefix ( List.rdropWhile_prefix _ _) (List.dropWhile_idempotent _ _)
  rw [h1, List.rdropWhile_idempotent]

theorem foldTrim_idem (s : PyStr) : foldTrim (foldTrim s) = foldTrim s := by
  simp only [foldTrim]
  rw [pyLower_pyStrip_pyLower, pyStrip_idem]

theorem falseLits_not_trueLits {v : PyStr} (h : v ∈ falseLits) : v ∉ trueLits := by
  simp only [falseLits, List.mem_cons, List.not_mem_nil, or_false] at h
  rcases h with rfl | rfl | rfl | rfl <;> decide

theorem normalize_some (s : PyStr) :
    StateComparison.normalize (some s) =
      if foldTrim s ∈ trueLits then some (pystr "true")
      else if foldTrim s ∈ falseLits then some (pystr "false")
      else some (foldTrim s) := rfl

/-! Part: The claims -/

/-- C1: `StateComparison.normalize` case-folds and trims its input; after
folding and trimming, the four true-literals map to `"true"`, the four
false-literals map to `"false"`, an absent input maps to the absent
(`Unknown`) value, and every other literal passes through as its folded and
trimmed form, never coerced to either boolean result. -/
theorem normalize_spec (x : Option PyStr) :
    (x = none → StateComparison.normalize x = none) ∧
    (∀ s, x = some s → foldTrim s ∈ trueLits →
        StateComparison.normalize x = some (pystr "true")) ∧
    (∀ s, x = some s → foldTrim s ∈ falseLits →
        StateComparison.normalize x = some (pystr "false")) ∧
    (∀ s, x = some s → foldTrim s ∉ trueLits → foldTrim s ∉ falseLits →
        StateComparison.normalize x = some (foldTrim s) ∧
        StateComparison.normalize x ≠ some (pystr "true") ∧
        StateComparison.normalize x ≠ some (pystr "false")) := by
  refine ⟨fun h => by rw [h]; rfl, fun s hs ht => ?_, fun s hs hf => ?_,
    fun s hs ht hf => ?_⟩
  · rw [hs, normalize_some, if_pos ht]
  · rw [hs, normalize_some, if_neg (fun hc => falseLits_not_trueLits hf hc), if_pos hf]
  · rw [hs, normalize_some, if_neg ht, if_neg hf]
    refine ⟨rfl, fun hc => ht ?_, fun hc => hf ?_⟩
    · rw [Option.some.inj hc]; decide
    · rw [Option.some.inj hc]; decide

/-- Witness for C1 at concrete inputs covering all four cases. -/
theorem normalize_spec_witness :
    StateComparison.normalize none = none ∧
    StateComparison.normalize (some (pystr " TRUE ")) = some (pystr "true") ∧
    StateComparison.normalize (some (pystr "Off")) = some (pystr "false") ∧
    StateComparison.normalize (some (pystr " Cheese ")) = some (pystr "cheese") :=
  ⟨(normalize_spec none).1 rfl,
   (normalize_spec _).2.1 _ rfl (by decide),
   (normalize_spec _).2.2.1 _ rfl (by decide),
   by
     have h := ((normalize_spec (some (pystr " Cheese "))).2.2.2 _ rfl
       (by decide) (by decide)).1
     rw [h]; decide⟩

/-- C5: normalisation is idempotent over every optional-string input, and
each of `"TRUE"`, `" On "`, `"1"`, `"Enabled"` normalises to the same value
as `"true"`.  Totality holds by construction: the function is defined on
every optional string. -/
theorem normalize_idem_total :
    (∀ x : Option PyStr,
        StateComparison.normalize (StateComparison.normalize x) =
          StateComparison.normalize x) ∧
    StateComparison.normalize (some (pystr "TRUE")) =
      StateComparison.normalize (some (pystr "true")) ∧
    StateComparison.normalize (some (pystr " On ")) =
      StateComparison.normalize (some (pystr "true")) ∧
    StateComparison.normalize (some (pystr "1")) =
      StateComparison.normalize (some (pystr "true")) ∧
    StateComparison.normalize (some (pystr "Enabled")) =
      StateComparison.normalize (some (pystr "true")) := by
  refine ⟨fun x => ?_, by decide, by decide, by decide, by decide⟩
  match x with
  | none => rfl
  | some s =>
    by_cases h1 : foldTrim s ∈ trueLits
    · rw [normalize_some s, if_pos h1]; decide
    · by_cases h2 : foldTrim s ∈ falseLits
      · rw [normalize_some s, if_neg h1, if_pos h2]; decide
      · rw [normalize_some s, if_neg h1, if_neg h2, normalize_some (foldTrim s),
          foldTrim_idem, if_neg h1, if_neg h2]

/-- C9: a comparison whose two error fields are unset and whose two observed
values are both absent is classified by `matches` as a match: in the source,
`normalize(None) == normalize(None)` is `None == None`, which is true. -/
theorem matches_both_none (c : StateComparison)
    (h1 : c.mqtt_error = none) (h2 : c.api_error = none)
    (h3 : c.mqtt_value = none) (h4 : c.api_value = none) :
    c.matches = true := by
  simp [StateComparison.matches, h1, h2, h3, h4, truthy]

/-- Witness for C9 on a freshly built check. -/
theorem matches_both_none_witness :
    StateComparison.matches
      { name := pystr "DNS Master"
        mqtt_topic := pystr "stat/dns_controller/master/status"
        api_endpoint := pystr "/alldns/" } = true :=
  matches_both_none _ rfl rfl rfl rfl

/-- C2: a check with a truthy error on either side is classified `Error` and
never `Match` or `Drift`; a check with no error on either side is classified
by equality of the two normalised values: equal gives `Match`, unequal gives
`Drift`, and `matches` itself is that equality test. -/
theorem classify_spec (c : StateComparison) :
    (hasError c = true →
        classify c = CheckClass.Error ∧
        classify c ≠ CheckClass.Match ∧ classify c ≠ CheckClass.Drift) ∧
    (hasError c = false →
        (classify c = CheckClass.Match ↔
            StateComparison.normalize c.mqtt_value =
              StateComparison.normalize c.api_value) ∧
        (classify c = CheckClass.Drift ↔
            StateComparison.normalize c.mqtt_value ≠
              StateComparison.normalize c.api_value) ∧
        c.matches = (StateComparison.normalize c.mqtt_value ==
            StateComparison.normalize c.api_value)) := by
  constructor
  · intro h
    refine ⟨by simp [classify, h], ?_, ?_⟩ <;> simp [classify, h]
  · intro h
    have h' : (truthy c.mqtt_error || truthy c.api_error) = false := h
    have hm : c.matches = (StateComparison.normalize c.mqtt_value ==
        StateComparison.normalize c.api_value) := by
      simp only [StateComparison.matches, h', Bool.false_eq_true, if_false]
    refine ⟨?_, ?_, hm⟩ <;>
      by_cases he : StateComparison.normalize c.mqtt_value =
          StateComparison.normalize c.api_value <;>
        simp [classify, hasError, h', hm, he]

/-- Witness for C2: an errored check classifies `Error`; an error-free check
whose sides normalise equally classifies `Match`. -/
theorem classify_spec_witness :
    classify { name := pystr "c", mqtt_topic := pystr "t", api_endpoint := pystr "e",
               mqtt_error := some (pystr "No retained message") } = CheckClass.Error ∧
    classify { name := pystr "c", mqtt_topic := pystr "t", api_endpoint := pystr "e",
               mqtt_value := some (pystr "true"), api_value := some (pystr "on") }
      = CheckClass.Match :=
  ⟨((classify_spec _).1 (by decide)).1,
   ((classify_spec _).2 (by decide)).1.mpr (by decide)⟩

/-- C6: with no errors, declared `"true"` against actual `"enabled"` is a
match; declared `"false"` against actual `"enabled"` is a drift, and the
drift detail row shows both normalised values (`"false"` and `"true"`). -/
theorem drift_scenario :
    classify { name := pystr "Block: youtube"
               mqtt_topic := pystr "stat/dns_controller/media/youtube/status"
               api_endpoint := pystr "/pihole/status/youtube"
               mqtt_value := some (pystr "true")
               api_value := some (pystr "enabled") } = CheckClass.Match ∧
    classify { name := pystr "Block: youtube"
               mqtt_topic := pystr "stat/dns_controller/media/youtube/status"
               api_endpoint := pystr "/pihole/status/youtube"
               mqtt_value := some (pystr "false")
               api_value := some (pystr "enabled") } = CheckClass.Drift ∧
    driftDetail { name := pystr "Block: youtube"
                  mqtt_topic := pystr "stat/dns_controller/media/youtube/status"
                  api_endpoint := pystr "/pihole/status/youtube"
                  mqtt_value := some (pystr "false")
                  api_value := some (pystr "enabled") }
      = some (some (pystr "false"), some (pystr "true")) := by
  refine ⟨by decide, by decide, by decide⟩

/-- C8: for a name resolving to no configured block definition, the engine
read returns the opaque string `"Unknown"`, which normalises to the
pass-through value `"unknown"` (so it is not the absent tri-state `Unknown`,
which normalises to the absent value); the read is a total function, so no
input raises. -/
theorem engine_get_unknown (e : ControlEngine) (name : PyStr)
    (h : e.lookupDomains name = none) :
    e.get name = pystr "Unknown" ∧
    StateComparison.normalize (some (e.get name)) = some (pystr "unknown") ∧
    StateComparison.normalize (some (e.get name)) ≠ StateComparison.normalize none := by
  have hg : e.get name = pystr "Unknown" := by
    simp [ControlEngine.get, h]
  rw [hg]
  exact ⟨rfl, by decide, by decide⟩

/-- Witness for C8 on an engine with no configured blocks. -/
theorem engine_get_unknown_witness :
    ControlEngine.get ⟨[], [], []⟩ (pystr "nonexistent") = pystr "Unknown" :=
  (engine_get_unknown ⟨[], [], []⟩ (pystr "nonexistent") rfl).1

/-- C10: a successful response whose JSON object lacks the `"status"` key
records the literal `"unknown"` as the api value and leaves `api_error`
untouched, and the check then compares as an ordinary value (a declared
`"unknown"` with no errors matches it); each of the three caught exception
shapes is captured into `api_error`, and the function is total, so no
outcome raises. -/
theorem fetch_api_spec (c : StateComparison) (body : List (PyStr × PyStr)) :
    (body.find? (fun kv => kv.1 == pystr "status") = none →
        (fetch_api_status c (HttpOutcome.success body)).api_value
            = some (pystr "unknown") ∧
        (fetch_api_status c (HttpOutcome.success body)).api_error = c.api_error ∧
        (c.mqtt_value = some (pystr "unknown") → c.mqtt_error = none →
          c.api_error = none →
            (fetch_api_status c (HttpOutcome.success body)).matches = true)) ∧
    (∀ code, (fetch_api_status c (HttpOutcome.statusError code)).api_error.isSome
        = true) ∧
    (∀ msg, (fetch_api_status c (HttpOutcome.requestError msg)).api_error.isSome
        = true) ∧
    (∀ msg, (fetch_api_status c (HttpOutcome.otherError msg)).api_error.isSome
        = true) := by
  refine ⟨fun hn => ?_, fun code => rfl, fun msg => rfl, fun msg => rfl⟩
  have hv : dictGet body (pystr "status") (pystr "unknown") = pystr "unknown" := by
    simp [dictGet, hn]
  have h1 : fetch_api_status c (HttpOutcome.success body)
      = { c with api_value := some (pystr "unknown") } := by
    simp [fetch_api_status, hv]
  rw [h1]
  refine ⟨rfl, rfl, fun hm hme hae => ?_⟩
  simp [StateComparison.matches, hm, hme, hae, truthy]

/-- Witness for C10 on a body carrying no status key. -/
theorem fetch_api_spec_witness :
    (fetch_api_status
        { name := pystr "n", mqtt_topic := pystr "t", api_endpoint := pystr "/e" }
        (HttpOutcome.success [(pystr "detail", pystr "x")])).api_value
      = some (pystr "unknown") ∧
    (fetch_api_status
        { name := pystr "n", mqtt_topic := pystr "t", api_endpoint := pystr "/e",
          mqtt_value := some (pystr "unknown") }
        (HttpOutcome.success [(pystr "detail", pystr "x")])).matches = true :=
  ⟨((fetch_api_spec _ _).1 (by decide)).1,
   ((fetch_api_spec _ _).1 (by decide)).2.2 rfl rfl rfl⟩

/-! Part: Counting lemmas for the report -/

theorem countP_cons_true {α : Type} {p : α → Bool} {x : α} (h : p x = true)
    (l : List α) : List.countP p (x :: l) = List.countP p l + 1 := by
  rw [List.countP_cons, h]
  simp

theorem countP_cons_false {α : Type} {p : α → Bool} {x : α} (h : p x = false)
    (l : List α) : List.countP p (x :: l) = List.countP p l := by
  rw [List.countP_cons, h]
  simp

theorem tally_go (l : List StateComparison) (a b : Nat) :
    l.foldl tallyStep (a, b) =
      (a + l.countP (isClass CheckClass.Drift),
       b + l.countP (isClass CheckClass.Error)) := by
  induction l generalizing a b with
  | nil => simp
  | cons x xs ih =>
    rw [List.foldl_cons]
    by_cases he : hasError x
    · have hcl : classify x = CheckClass.Error := by simp [classify, he]
      have hx : tallyStep (a, b) x = (a, b + 1) := by simp [tallyStep, he]
      have hcd : isClass CheckClass.Drift x = false := by
        simp only [isClass, hcl]; decide
      have hce : isClass CheckClass.Error x = true := by
        simp only [isClass, hcl]; decide
      rw [hx, ih, countP_cons_false hcd, countP_cons_true hce, Prod.mk.injEq]
      exact ⟨rfl, by omega⟩
    · by_cases hm : x.matches
      · have hcl : classify x = CheckClass.Match := by simp [classify, he, hm]
        have hx : tallyStep (a, b) x = (a, b) := by simp [tallyStep, he, hm]
        have hcd : isClass CheckClass.Drift x = false := by
          simp only [isClass, hcl]; decide
        have hce : isClass CheckClass.Error x = false := by
          simp only [isClass, hcl]; decide
        rw [hx, ih, countP_cons_false hcd, countP_cons_false hce]
      · have hmf : x.matches = false := by
          cases hb : x.matches
          · rfl
          · exact absurd hb hm
        have hcl : classify x = CheckClass.Drift := by simp [classify, he, hmf]
        have hx : tallyStep (a, b) x = (a + 1, b) := by simp [tallyStep, he, hmf]
        have hcd : isClass CheckClass.Drift x = true := by
          simp only [isClass, hcl]; decide
        have hce : isClass CheckClass.Error x = false := by
          simp only [isClass, hcl]; decide
        rw [hx, ih, countP_cons_true hcd, countP_cons_false hce, Prod.mk.injEq]
        exact ⟨by omega, rfl⟩

theorem tally_eq (checks : List StateComparison) :
    tally checks = (checks.countP (isClass CheckClass.Drift),
                    checks.countP (isClass CheckClass.Error)) := by
  have h := tally_go checks 0 0
  simpa [tally] using h

theorem count_classes (l : List StateComparison) :
    l.countP (isClass CheckClass.Match) + l.countP (isClass CheckClass.Drift) +
      l.countP (isClass CheckClass.Error) = l.length := by
  induction l with
  | nil => rfl
  | cons x xs ih =>
    rw [List.length_cons]
    cases hcl : classify x
    · have h1 : isClass CheckClass.Match x = true := by
        simp only [isClass, hcl]; decide
      have h2 : isClass CheckClass.Drift x = false := by
        simp only [isClass, hcl]; decide
      have h3 : isClass CheckClass.Error x = false := by
        simp only [isClass, hcl]; decide
      rw [countP_cons_true h1, countP_cons_false h2, countP_cons_false h3]
      omega
    · have h1 : isClass CheckClass.Match x = false := by
        simp only [isClass, hcl]; decide
      have h2 : isClass CheckClass.Drift x = true := by
        simp only [isClass, hcl]; decide
      have h3 : isClass CheckClass.Error x = false := by
        simp only [isClass, hcl]; decide
      rw [countP_cons_false h1, countP_cons_true h2, countP_cons_false h3]
      omega
    · have h1 : isClass CheckClass.Match x = false := by
        simp only [isClass, hcl]; decide
      have h2 : isClass CheckClass.Drift x = false := by
        simp only [isClass, hcl]; decide
      have h3 : isClass CheckClass.Error x = true := by
        simp only [isClass, hcl]; decide
      rw [countP_cons_false h1, countP_cons_false h2, countP_cons_true h3]
      omega

/-- C3: the report counts satisfy matching + drifts + errors = total, where
each count is the number of checks classified into that row; the exit code is
1 exactly when drifts or errors are positive, and it is 0 exactly when every
check is classified as a match. -/
theorem print_results_spec (checks : List StateComparison) :
    (print_results checks).matching + (print_results checks).drifts +
        (print_results checks).errors = (print_results checks).total ∧
    (print_results checks).matching = checks.countP (isClass CheckClass.Match) ∧
    (print_results checks).drifts = checks.countP (isClass CheckClass.Drift) ∧
    (print_results checks).errors = checks.countP (isClass CheckClass.Error) ∧
    (print_results checks).exit_code =
      (if 0 < (print_results checks).drifts ∨ 0 < (print_results checks).errors
        then 1 else 0) ∧
    ((print_results checks).exit_code = 0 ↔
      ∀ c ∈ checks, classify c = CheckClass.Match) := by
  have hpair := tally_eq checks
  have hd : (tally checks).1 = checks.countP (isClass CheckClass.Drift) := by
    rw [hpair]
  have he : (tally checks).2 = checks.countP (isClass CheckClass.Error) := by
    rw [hpair]
  have hcc := count_classes checks
  have h1 : (print_results checks).matching
      = checks.length - (tally checks).1 - (tally checks).2 := rfl
  have h2 : (print_results checks).drifts = (tally checks).1 := rfl
  have h3 : (print_results checks).errors = (tally checks).2 := rfl
  have h4 : (print_results checks).total = checks.length := rfl
  have h5 : (print_results checks).exit_code
      = if 0 < (tally checks).1 ∨ 0 < (tally checks).2 then 1 else 0 := rfl
  refine ⟨by rw [h1, h2, h3, h4]; omega, by rw [h1]; omega,
    by rw [h2, hd], by rw [h3, he], by rw [h5, h2, h3], ?_⟩
  rw [h5]
  constructor
  · intro h0
    have hnot : ¬(0 < (tally checks).1 ∨ 0 < (tally checks).2) := by
      intro hc
      rw [if_pos hc] at h0
      exact one_ne_zero h0
    have hd0 : checks.countP (isClass CheckClass.Drift) = 0 := by omega
    have he0 : checks.countP (isClass CheckClass.Error) = 0 := by omega
    intro c hc
    have hnd := List.countP_eq_zero.mp hd0 c hc
    have hne := List.countP_eq_zero.mp he0 c hc
    cases hcl : classify c
    · rfl
    · exact absurd (by simp [isClass, hcl]) hnd
    · exact absurd (by simp [isClass, hcl]) hne
  · intro hall
    have hd0 : checks.countP (isClass CheckClass.Drift) = 0 :=
      List.countP_eq_zero.mpr fun c hc => by simp [isClass, hall c hc]
    have he0 : checks.countP (isClass CheckClass.Error) = 0 :=
      List.countP_eq_zero.mpr fun c hc => by simp [isClass, hall c hc]
    have ht1 : (tally checks).1 = 0 := by omega
    have ht2 : (tally checks).2 = 0 := by omega
    rw [ht1, ht2]
    simp

/-- C4: after the MQTT collection step, the check list keeps its length and
every check keeps a reported entry; a check whose topic yielded no retained
message carries exactly the error `"No retained message"` and is classified
`Error`, while a check whose topic yielded a payload records that payload and
keeps its error field untouched. -/
theorem run_checks_mqtt_spec (m : PyStr → Option PyStr)
    (checks : List StateComparison) :
    (collectMqtt m checks).length = checks.length ∧
    ∀ c ∈ checks,
      applyMqtt m c ∈ collectMqtt m checks ∧
      (m c.mqtt_topic = none →
          (applyMqtt m c).mqtt_error = some (pystr "No retained message") ∧
          classify (applyMqtt m c) = CheckClass.Error) ∧
      (∀ v, m c.mqtt_topic = some v →
          (applyMqtt m c).mqtt_value = some v ∧
          (applyMqtt m c).mqtt_error = c.mqtt_error) := by
  refine ⟨by simp [collectMqtt], fun c hc =>
    ⟨List.mem_map_of_mem _ hc, fun hn => ?_, fun v hv => ?_⟩⟩
  · have ha : applyMqtt m c = { c with mqtt_error := some (pystr "No retained message") } := by
      simp [applyMqtt, hn]
    rw [ha]
    have htr : truthy (some (pystr "No retained message")) = true := by decide
    exact ⟨rfl, by simp [classify, hasError, htr]⟩
  · have ha : applyMqtt m c = { c with mqtt_value := some v } := by
      simp [applyMqtt, hv]
    rw [ha]
    exact ⟨rfl, rfl⟩

/-- Witness for C4: two checks, one topic retained, one missing. -/
theorem run_checks_mqtt_witness :
    (applyMqtt (fun t => if t = pystr "stat/a" then some (pystr "true") else none)
        { name := pystr "B", mqtt_topic := pystr "stat/b",
          api_endpoint := pystr "/b" }).mqtt_error
      = some (pystr "No retained message") ∧
    classify (applyMqtt (fun t => if t = pystr "stat/a" then some (pystr "true") else none)
        { name := pystr "B", mqtt_topic := pystr "stat/b",
          api_endpoint := pystr "/b" }) = CheckClass.Error ∧
    (applyMqtt (fun t => if t = pystr "stat/a" then some (pystr "true") else none)
        { name := pystr "A", mqtt_topic := pystr "stat/a",
          api_endpoint := pystr "/a" }).mqtt_value
      = some (pystr "true") := by
  have h := run_checks_mqtt_spec
    (fun t => if t = pystr "stat/a" then some (pystr "true") else none)
    [{ name := pystr "B", mqtt_topic := pystr "stat/b", api_endpoint := pystr "/b" },
     { name := pystr "A", mqtt_topic := pystr "stat/a", api_endpoint := pystr "/a" }]
  refine ⟨((h.2 _ (by decide)).2.1 (by decide)).1,
    ((h.2 _ (by decide)).2.1 (by decide)).2,
    ((h.2 _ (by decide)).2.2 (pystr "true") (by decide)).1⟩

/-! Part: Structure of the built check list -/

theorem foldl_append_map {α : Type} (f : α → StateComparison) (l : List α)
    (init : List StateComparison) :
    l.foldl (fun acc d => acc ++ [f d]) init = init ++ l.map f := by
  induction l generalizing init with
  | nil => simp
  | cons x xs ih => simp [ih]

theorem foldl_rules (l : List PyStr) (init : List StateComparison) :
    l.foldl (fun acc line =>
        if (pyStrip line).isEmpty then acc
        else acc ++ [mkRuleCheck (pyStrip line)]) init
      = init ++ ((l.map pyStrip).filter (fun r => !r.isEmpty)).map mkRuleCheck := by
  induction l generalizing init with
  | nil => simp
  | cons x xs ih =>
    rw [List.foldl_cons]
    by_cases h : (pyStrip x).isEmpty
    · have h2 : ¬((!(pyStrip x).isEmpty) = true) := by rw [h]; decide
      rw [if_pos h, List.map_cons, List.filter_cons, if_neg h2]
      exact ih init
    · have hb : (pyStrip x).isEmpty = false := by
        cases hx : (pyStrip x).isEmpty
        · rfl
        · exact absurd hx h
      have h2 : (!(pyStrip x).isEmpty) = true := by rw [hb]; decide
      rw [if_neg h, List.map_cons, List.filter_cons, if_pos h2, List.map_cons, ih,
        List.append_assoc, List.singleton_append]

theorem pystr_append_ne {pre target : PyStr} (h : target.length < pre.length)
    (d : PyStr) : ((pre ++ d) == target) = false := by
  rw [beq_eq_false_iff_ne]
  intro hc
  have hlen := congrArg List.length hc
  rw [List.length_append] at hlen
  omega

/-- C7: the built check list is exactly the global DNS check followed by one
check per configured domain-block option, one per configured domain-allow
option, and one per configured firewall-rule name (the non-empty stripped
lines of the rules value), each carrying its MQTT topic and API endpoint as
fixed by `mkBlockCheck`, `mkAllowCheck` and `mkRuleCheck`; exactly one check
in the list targets the global endpoint, and the length is one plus the three
configured counts. -/
theorem build_checks_spec (config : IniConfig) :
    build_checks config =
      dnsMasterCheck ::
        ((config.block_domains.getD []).map mkBlockCheck ++
         (config.allow_domains.getD []).map mkAllowCheck ++
         (ruleNamesOf config.ubiquiti_rules).map mkRuleCheck) ∧
    (build_checks config).countP
        (fun c => c.api_endpoint == pystr "/alldns/") = 1 ∧
    (build_checks config).length =
      1 + (config.block_domains.getD []).length +
        (config.allow_domains.getD []).length +
        (ruleNamesOf config.ubiquiti_rules).length := by
  have hz : ∀ (f : PyStr → StateComparison) (pre : PyStr),
      (∀ d, (f d).api_endpoint = pre ++ d) →
      (pystr "/alldns/").length < pre.length →
      ∀ (l : List PyStr),
        (l.map f).countP (fun c => c.api_endpoint == pystr "/alldns/") = 0 := by
    intro f pre hf hlen l
    rw [List.countP_map]
    apply List.countP_eq_zero.mpr
    intro d _
    simp [Function.comp, hf d, pystr_append_ne hlen d]
  have hmain : build_checks config =
      dnsMasterCheck ::
        ((config.block_domains.getD []).map mkBlockCheck ++
         (config.allow_domains.getD []).map mkAllowCheck ++
         (ruleNamesOf config.ubiquiti_rules).map mkRuleCheck) := by
    obtain ⟨b, a, r⟩ := config
    simp only [build_checks]
    cases b <;> cases a <;> cases r <;>
      simp only [foldl_append_map, foldl_rules, ruleNamesOf] <;>
      simp [List.append_assoc]
  refine ⟨hmain, ?_, ?_⟩
  · rw [hmain, List.countP_cons, List.countP_append, List.countP_append]
    rw [hz mkBlockCheck (pystr "/pihole/status/") (fun d => rfl) (by decide) _,
      hz mkAllowCheck (pystr "/pihole/status/") (fun d => rfl) (by decide) _,
      hz mkRuleCheck (pystr "/ubiquiti/status_rule/") (fun d => rfl) (by decide) _]
    decide
  · rw [hmain]
    simp [List.length_cons, List.length_append, List.length_map]
    omega
